import Mathlib

/-!
Verification of the `blog-web` Go blog server (`main.go`) against its
natural-language specification.

Strings are modelled as `List Char` (Go strings, viewed as rune sequences;
all data relevant to the properties below is ASCII or treated opaquely).
External collaborators that are not part of the repository — the YAML
decoder (`gopkg.in/yaml.v3`), the markdown renderer (`goldmark`), the
title caser (`golang.org/x/text/cases`) and the standard-library sorting
routine (`sort.Slice`) — are modelled by their documented contracts, as
explained at each definition.
-/

namespace BlogWeb

/-! ### Slug validation (`validSlugRegex`, `IsValidSlug`)

`main.go` line 49 declares `validSlugRegex = regexp.MustCompile("^[a-zA-Z0-9_-]+$")`
and `IsValidSlug` (lines 171-173) returns `validSlugRegex.MatchString(slug)`.
We embed the regular expression itself (character class, concatenation,
alternation, Kleene star, both ends anchored — `MatchString` with `^`/`$`
matches the whole string) and run it with a Brzozowski-derivative matcher. -/

/-- Character class of the regex `[a-zA-Z0-9_-]`: ASCII letters, ASCII digits,
underscore and hyphen. -/
def slugChar (c : Char) : Bool :=
  (97 ≤ c.toNat && c.toNat ≤ 122) || (65 ≤ c.toNat && c.toNat ≤ 90) ||
  (48 ≤ c.toNat && c.toNat ≤ 57) || c = '_' || c = '-'

/-- Regular expressions over characters: empty language, empty string,
single-character class, concatenation, alternation, Kleene star. -/
inductive Reg where
  | emp : Reg
  | eps : Reg
  | chr : (Char → Bool) → Reg
  | cat : Reg → Reg → Reg
  | alt : Reg → Reg → Reg
  | star : Reg → Reg

/-- Does the regular expression accept the empty string? -/
def Reg.nullable : Reg → Bool
  | .emp => false
  | .eps => true
  | .chr _ => false
  | .cat r s => r.nullable && s.nullable
  | .alt r s => r.nullable || s.nullable
  | .star _ => true

/-- Brzozowski derivative of a regular expression by a character. -/
def Reg.deriv (c : Char) : Reg → Reg
  | .emp => .emp
  | .eps => .emp
  | .chr p => if p c then .eps else .emp
  | .cat r s =>
      if r.nullable then .alt (.cat (r.deriv c) s) (s.deriv c)
      else .cat (r.deriv c) s
  | .alt r s => .alt (r.deriv c) (s.deriv c)
  | .star r => .cat (r.deriv c) (.star r)

/-- Anchored match of a regular expression against a whole string. -/
def Reg.rmatch : Reg → List Char → Bool
  | r, [] => r.nullable
  | r, c :: s => (r.deriv c).rmatch s

/-- The slug validation regex `^[a-zA-Z0-9_-]+$` (`main.go` line 49):
one `[a-zA-Z0-9_-]` followed by zero or more of the same class, anchored. -/
def validSlugRegex : Reg := .cat (.chr slugChar) (.star (.chr slugChar))

/-- `IsValidSlug` (`main.go` lines 171-173): match the slug against
`validSlugRegex`. -/
def IsValidSlug (slug : List Char) : Bool := validSlugRegex.rmatch slug

/-! ### Frontmatter parsing (`ParseFrontmatter`, `main.go` lines 132-154) -/

/-- `PostFrontmatter` (`main.go` lines 34-37): the YAML frontmatter fields
`title` and `date`, both strings (empty when absent). -/
structure PostFrontmatter where
  title : List Char
  date : List Char
deriving DecidableEq

/-- The zero value of `PostFrontmatter` (`var fm PostFrontmatter`). -/
def emptyFM : PostFrontmatter := ⟨[], []⟩

/-- The three-character delimiter `---`. -/
def dashes : List Char := ['-', '-', '-']

/-- Split at the first occurrence of `---`, as `strings.SplitN(s, "---", 2)`
does: `some (pre, post)` when the delimiter occurs (`pre` before it, `post`
after it), `none` when it does not (Go then returns a one-element slice). -/
def splitOnceDashes : List Char → Option (List Char × List Char)
  | [] => none
  | c :: rest =>
    if dashes.isPrefixOf (c :: rest) then some ([], rest.drop 2)
    else
      match splitOnceDashes rest with
      | none => none
      | some (pre, post) => some (c :: pre, post)

/-- Does `---` occur anywhere in the string (as `strings.Contains`)? -/
def hasDashes : List Char → Bool
  | [] => false
  | c :: rest => dashes.isPrefixOf (c :: rest) || hasDashes rest

/-- Characters trimmed by `strings.TrimSpace` (`unicode.IsSpace` in Latin-1):
space, tab, newline, vertical tab, form feed, carriage return, NEL (U+0085)
and NBSP (U+00A0). -/
def isGoSpace (c : Char) : Bool :=
  c = ' ' || c = '\t' || c = '\n' || c.toNat = 11 || c.toNat = 12 ||
  c = '\r' || c.toNat = 133 || c.toNat = 160

/-- `strings.TrimSpace`: drop leading and trailing white space. -/
def goTrimSpace (s : List Char) : List Char :=
  ((s.dropWhile isGoSpace).reverse.dropWhile isGoSpace).reverse

/-- `ParseFrontmatter` (`main.go` lines 132-154). The YAML decoder
`yaml.Unmarshal` is an external collaborator (`gopkg.in/yaml.v3`); it is
passed in as `yd`, where `yd block = none` models `yaml.Unmarshal`
returning an error without having decoded the block as key/value metadata
(the zero-valued `fm` then stands, and the error is only logged), and
`yd block = some fm` models a successful decode into `fm`.

The Go code: if the content does not start with `---`, return the zero
frontmatter and the content unchanged; otherwise split `content[3:]` at the
next `---`; if there is none, return the zero frontmatter and the content
unchanged; otherwise decode the part before the delimiter and return the
trimmed part after it as the body. -/
def ParseFrontmatter (yd : List Char → Option PostFrontmatter)
    (content : List Char) : PostFrontmatter × List Char :=
  if dashes.isPrefixOf content then
    match splitOnceDashes (content.drop 3) with
    | none => (emptyFM, content)
    | some (pre, post) => ((yd pre).getD emptyFM, goTrimSpace post)
  else (emptyFM, content)

/-- `ParseFrontmatter` with the YAML decoder's error channel made
explicit: `ydE block = (fm, errored)` models `yaml.Unmarshal(block, &fm)`
writing the fields `fm` into the zero-valued struct and returning a
non-nil error exactly when `errored`. The Go code discards the error
after logging it (`main.go` lines 148-150) and returns `fm` as written,
so the observable result is `ParseFrontmatter` applied to the written
fields alone; the error flag lets decode failure be stated as a
hypothesis. -/
def ParseFrontmatterE (ydE : List Char → PostFrontmatter × Bool)
    (content : List Char) : PostFrontmatter × List Char :=
  ParseFrontmatter (fun s => some (ydE s).1) content

/-- A decoder outcome drawn from yaml.v3's documented contract: on the
metadata block `\ntitle: Hello\ndate: [2026]\n` the `title` field decodes
to `Hello`, the `date` field (a YAML sequence) cannot decode into a
string, and per the `Unmarshal` documentation "decoding continues
partially until the end of the YAML content, and a *yaml.TypeError is
returned" — so the struct is left with `Title` populated and `Date`
empty, together with a non-nil error. -/
def ydTypeErr : List Char → PostFrontmatter × Bool :=
  fun _ => (⟨"Hello".toList, []⟩, true)

/-! ### Title casing (`toTitleCase`, `main.go` lines 164-168) and
`strings.ReplaceAll(slug, "-", " ")` -/

/-- Is `c` an ASCII letter? -/
def isAsciiLetter (c : Char) : Bool :=
  (65 ≤ c.toNat && c.toNat ≤ 90) || (97 ≤ c.toNat && c.toNat ≤ 122)

/-- Uppercase an ASCII lowercase letter, leave anything else unchanged. -/
def upChar (c : Char) : Char :=
  if 97 ≤ c.toNat && c.toNat ≤ 122 then Char.ofNat (c.toNat - 32) else c

/-- Lowercase an ASCII uppercase letter, leave anything else unchanged. -/
def downChar (c : Char) : Char :=
  if 65 ≤ c.toNat && c.toNat ≤ 90 then Char.ofNat (c.toNat + 32) else c

/-- Characters that continue a word without being cased (digits and
underscore, which is ExtendNumLet in the Unicode word-break rules). -/
def isWordJoin (c : Char) : Bool :=
  (48 ≤ c.toNat && c.toNat ≤ 57) || c = '_'

/-- Worker for `toTitleCase`; the flag records whether a cased letter has
already been seen in the current word. The first letter of each word is
uppercased, later letters of the word are lowercased, digits and
underscore pass through without ending the word, anything else ends the
word. -/
def titleCaseAux : Bool → List Char → List Char
  | _, [] => []
  | midWord, c :: rest =>
    if isAsciiLetter c then
      (if midWord then downChar c else upChar c) :: titleCaseAux true rest
    else if isWordJoin c then c :: titleCaseAux midWord rest
    else c :: titleCaseAux false rest

/-- `toTitleCase` (`main.go` lines 164-168) delegates to the external
`golang.org/x/text/cases` caser `cases.Title(language.English)`. This
models its documented behaviour on the alphabet the server feeds it
(validated slugs with hyphens replaced by spaces, hence ASCII letters,
digits, underscore and space): the first letter of every word is
titlecased and the remaining letters of the word are lowercased. -/
def toTitleCase (s : List Char) : List Char := titleCaseAux false s

/-- `strings.ReplaceAll(slug, "-", " ")`: replacing a single character by a
single character is a character-wise map. -/
def replaceDashSpace (s : List Char) : List Char :=
  s.map fun c => if c = '-' then ' ' else c

/-! ### HTML escaping (`template.HTMLEscapeString`) and date formatting
(`t.Format("Jan 2, 2006")`) -/

/-- `template.HTMLEscapeString` escapes exactly these characters: NUL
(to U+FFFD), `"` (to `&#34;`), `'` (to `&#39;`), `&` (to `&amp;`),
`<` (to `&lt;`) and `>` (to `&gt;`). This is the per-character table. -/
def escapeChar (c : Char) : List Char :=
  if c.toNat = 0 then [Char.ofNat 0xFFFD]
  else if c.toNat = 34 then ['&', '#', '3', '4', ';']
  else if c.toNat = 39 then ['&', '#', '3', '9', ';']
  else if c = '&' then ['&', 'a', 'm', 'p', ';']
  else if c = '<' then ['&', 'l', 't', ';']
  else if c = '>' then ['&', 'g', 't', ';']
  else [c]

/-- `template.HTMLEscapeString`: escape every character of the string. -/
def htmlEscapeString : List Char → List Char
  | [] => []
  | c :: cs => escapeChar c ++ htmlEscapeString cs

/-- A character the escaper leaves alone. -/
def escNeutral (c : Char) : Bool :=
  !(c.toNat = 0 || c.toNat = 34 || c.toNat = 39 ||
    c = '&' || c = '<' || c = '>')

/-- Decimal digit character for `k ≤ 9` (callers only use `k ≤ 9`). -/
def digitChar : Nat → Char
  | 0 => '0' | 1 => '1' | 2 => '2' | 3 => '3' | 4 => '4'
  | 5 => '5' | 6 => '6' | 7 => '7' | 8 => '8' | _ => '9'

/-- Decimal digits of `n`, most significant first (fuel-driven worker;
`natDec` supplies enough fuel). -/
def natDecAux : Nat → Nat → List Char
  | 0, _ => []
  | fuel + 1, n =>
    if n < 10 then [digitChar n]
    else natDecAux fuel (n / 10) ++ [digitChar (n % 10)]

/-- Decimal representation of `n`, as Go prints an integer. -/
def natDec (n : Nat) : List Char := natDecAux (n + 1) n

/-- Zero-pad a decimal representation to four digits, as the year format
`2006` does in `time.Format`. -/
def pad4 (n : Nat) : List Char :=
  List.replicate (4 - (natDec n).length) '0' ++ natDec n

/-- Month abbreviations used by the `Jan` format verb; months are `1`-`12`
after a successful `time.Parse`. -/
def monthAbbrev : Nat → List Char
  | 1 => ['J', 'a', 'n'] | 2 => ['F', 'e', 'b'] | 3 => ['M', 'a', 'r']
  | 4 => ['A', 'p', 'r'] | 5 => ['M', 'a', 'y'] | 6 => ['J', 'u', 'n']
  | 7 => ['J', 'u', 'l'] | 8 => ['A', 'u', 'g'] | 9 => ['S', 'e', 'p']
  | 10 => ['O', 'c', 't'] | 11 => ['N', 'o', 'v'] | 12 => ['D', 'e', 'c']
  | _ => []

/-- Is `y` a leap year (proleptic Gregorian, as `time` uses)? -/
def isLeap (y : Nat) : Bool := y % 4 = 0 && (y % 100 ≠ 0 || y % 400 = 0)

/-- Number of days in month `m` of year `y`. -/
def daysInMonth (y m : Nat) : Nat :=
  if m = 2 then (if isLeap y then 29 else 28)
  else if m = 4 || m = 6 || m = 9 || m = 11 then 30
  else 31

/-- Numeric value of a decimal digit character, `none` otherwise. -/
def digitVal (c : Char) : Option Nat :=
  if 48 ≤ c.toNat && c.toNat ≤ 57 then some (c.toNat - 48) else none

/-- `time.Parse("2006-01-02", s)`: the string must be exactly four digits,
a hyphen, two digits, a hyphen and two digits, with a month in `1..12` and
a day valid for that month and year; the parsed `(year, month, day)` is
returned, `none` on any failure. -/
def parseDateYMD : List Char → Option (Nat × Nat × Nat)
  | [y1, y2, y3, y4, h1, m1, m2, h2, d1, d2] =>
    if h1 = '-' && h2 = '-' then
      match digitVal y1, digitVal y2, digitVal y3, digitVal y4,
            digitVal m1, digitVal m2, digitVal d1, digitVal d2 with
      | some a, some b, some c, some d, some e, some f, some g, some h =>
        let y := ((a * 10 + b) * 10 + c) * 10 + d
        let m := e * 10 + f
        let dy := g * 10 + h
        if 1 ≤ m && m ≤ 12 && 1 ≤ dy && dy ≤ daysInMonth y m then
          some (y, m, dy)
        else none
      | _, _, _, _, _, _, _, _ => none
    else none
  | _ => none

/-- `t.Format("Jan 2, 2006")`: month abbreviation, space, day without
padding, comma, space, four-digit year. -/
def formatJan2 : Nat × Nat × Nat → List Char
  | (y, m, d) => monthAbbrev m ++ [' '] ++ natDec d ++ [',', ' '] ++ pad4 y

/-- `Post` (`main.go` lines 26-31). `date` is the chronological rank of the
`time.Time` field (`dateRank` of the resolved date); `0` is the zero
`time.Time`, which the handler leaves in place when no date resolves.
`dateStr` is the preformatted display date (empty when none resolved). -/
structure Post where
  slug : List Char
  title : List Char
  date : Nat
  dateStr : List Char
deriving DecidableEq

/-- The string `en`. -/
def enStr : List Char := ['e', 'n']

/-- The string `th`. -/
def thStr : List Char := ['t', 'h']

/-- Locale resolution in `HomeHandler` (`main.go` lines 239-248):
`lang := r.URL.Query().Get("lang")` (the empty string when the parameter
is absent), then if `lang` is empty and the `lang` cookie is present take
the cookie's value, then default anything other than `en`/`th` to `th`.
`query`/`cookie` are `none` when absent. -/
def resolveLang (query cookie : Option (List Char)) : List Char :=
  let lang := match query with | some v => v | none => []
  let lang := if lang = [] then (match cookie with | some v => v | none => lang) else lang
  if lang ≠ enStr && lang ≠ thStr then thStr else lang

/-- Locale resolution in `ContactHandler` (`main.go` lines 179-188`), a
textual duplicate of the `HomeHandler` logic. -/
def contactResolveLang (query cookie : Option (List Char)) : List Char :=
  let lang := match query with | some v => v | none => []
  let lang := if lang = [] then (match cookie with | some v => v | none => lang) else lang
  if lang ≠ enStr && lang ≠ thStr then thStr else lang

/-- Modelled from the spec: the resolved locale "is taken from the lang
query parameter, else from the lang cookie, and any other value of the
selected source (including empty or absent) resolves to the default th".
The selected source is the query parameter when non-empty, else the
cookie. -/
def langSpec (query cookie : Option (List Char)) : List Char :=
  let src := if query.getD [] ≠ [] then query.getD [] else cookie.getD []
  if src = enStr ∨ src = thStr then src else thStr

/-! ### Language filtering of the post index (`HomeHandler` lines 268-280) -/

/-- The suffix `.md`. -/
def mdExt : List Char := ['.', 'm', 'd']

/-- The prefix `th-`. -/
def thDash : List Char := ['t', 'h', '-']

/-- The prefix `en-`. -/
def enDash : List Char := ['e', 'n', '-']

/-- `strings.TrimSuffix(name, ".md")`. -/
def trimSuffixMd (name : List Char) : List Char :=
  if mdExt.isSuffixOf name then name.take (name.length - 3) else name

/-- The filter of `HomeHandler` (`main.go` lines 268-280): a directory
entry contributes a post exactly when its name ends in `.md` and, writing
`slug` for the name with the extension trimmed, either `slug` has no
`th-`/`en-` language tag, or its tag is `lang + "-"`. -/
def includesFile (lang name : List Char) : Bool :=
  if mdExt.isSuffixOf name then
    let slug := trimSuffixMd name
    if thDash.isPrefixOf slug || enDash.isPrefixOf slug then
      (lang ++ ['-']).isPrefixOf slug
    else true
  else false

/-! ### Page composition (`HomeHandler` lines 343-356, `PostHandler` lines
396-408) -/

/-- One `<li>` entry of the home-page post list (`main.go` lines 349-354):
slug, title and display date are HTML-escaped on insertion. -/
def postListItem (p : Post) : List Char :=
  "<li>".toList ++
  "<a href=\"/posts/".toList ++ htmlEscapeString p.slug ++ "\">".toList ++
  htmlEscapeString p.title ++ "</a>".toList ++
  "<span class=\"post-date\">".toList ++ htmlEscapeString p.dateStr ++
  "</span>".toList ++ "</li>\n".toList

/-- The home-page content fragment (`main.go` lines 343-356): localized
welcome heading, welcome text and posts heading, each HTML-escaped,
followed by the post list. -/
def homePageContent (welcomeTitle welcomeText postsHeading : List Char)
    (posts : List Post) : List Char :=
  "<h1>".toList ++ htmlEscapeString welcomeTitle ++ "</h1>\n".toList ++
  "<p class=\"about-me\">".toList ++ htmlEscapeString welcomeText ++ "</p>\n".toList ++
  "<h2 class=\"posts-heading\">".toList ++ htmlEscapeString postsHeading ++ "</h2>\n".toList ++
  "<ul class=\"post-list\">\n".toList ++
  (posts.map postListItem).flatten ++
  "</ul>\n".toList

/-- The post-page article fragment (`main.go` lines 396-408): escaped
title; when the frontmatter date is non-empty and parses as `YYYY-MM-DD`,
a `post-meta` span holding `t.Format("Jan 2, 2006")` (inserted as
formatted, without an escaping call); then the rendered markdown body
verbatim. -/
def postPageHTML (title fmDate bodyHTML : List Char) : List Char :=
  "<article>\n".toList ++ "<div class=\"post-header\">\n".toList ++
  "<h1>".toList ++ htmlEscapeString title ++ "</h1>\n".toList ++
  (if fmDate ≠ [] then
    match parseDateYMD fmDate with
    | some ymd =>
      "<span class=\"post-meta\">".toList ++ formatJan2 ymd ++ "</span>\n".toList
    | none => []
  else []) ++
  "</div>\n".toList ++ bodyHTML ++ "</article>".toList

/-- Modelled from the spec: the home-page composition with every dynamic
text (headings, slug, title, display date) HTML-escaped before insertion
and nothing else dynamic. -/
def homePageContentSpec (welcomeTitle welcomeText postsHeading : List Char)
    (posts : List Post) : List Char :=
  "<h1>".toList ++ htmlEscapeString welcomeTitle ++ "</h1>\n".toList ++
  "<p class=\"about-me\">".toList ++ htmlEscapeString welcomeText ++ "</p>\n".toList ++
  "<h2 class=\"posts-heading\">".toList ++ htmlEscapeString postsHeading ++ "</h2>\n".toList ++
  "<ul class=\"post-list\">\n".toList ++
  (posts.map fun p =>
    "<li>".toList ++
    "<a href=\"/posts/".toList ++ htmlEscapeString p.slug ++ "\">".toList ++
    htmlEscapeString p.title ++ "</a>".toList ++
    "<span class=\"post-date\">".toList ++ htmlEscapeString p.dateStr ++
    "</span>".toList ++ "</li>\n".toList).flatten ++
  "</ul>\n".toList

/-- Modelled from the spec: the post-page composition with every dynamic
text HTML-escaped before insertion — including the formatted date — and
only the markdown-rendered body inserted verbatim as trusted HTML. -/
def postPageHTMLSpec (title fmDate bodyHTML : List Char) : List Char :=
  "<article>\n".toList ++ "<div class=\"post-header\">\n".toList ++
  "<h1>".toList ++ htmlEscapeString title ++ "</h1>\n".toList ++
  (if fmDate ≠ [] then
    match parseDateYMD fmDate with
    | some ymd =>
      "<span class=\"post-meta\">".toList ++ htmlEscapeString (formatJan2 ymd) ++
      "</span>\n".toList
    | none => []
  else []) ++
  "</div>\n".toList ++ bodyHTML ++ "</article>".toList

/-! ### The post handler (`PostHandler`, `main.go` lines 360-412) -/

/-- Outcome of one request to `GET /posts/{slug}`: the HTTP error
responses 400 (`Invalid post slug`), 404 (`Post not found`) and 500
(`Error rendering post`), or the 200 page with its title and article
body. -/
inductive PostResponse where
  | badRequest : PostResponse
  | notFound : PostResponse
  | renderFailure : PostResponse
  | ok : List Char → List Char → PostResponse
deriving DecidableEq

/-- `PostHandler` (`main.go` lines 360-412). External collaborators are
parameters: `md` models `goldmark.Convert` (an error yields the 500
response), `yd` the YAML decoder (see `ParseFrontmatter`), and `reader`
the injected `SlugReader` (an error yields the 404 response). The slug is
validated before the reader is consulted; the page title is the
frontmatter title, or the title-cased slug with hyphens replaced by
spaces when the frontmatter title is empty. -/
def PostHandler (md : List Char → Except Unit (List Char))
    (yd : List Char → Option PostFrontmatter)
    (reader : List Char → Except Unit (List Char))
    (slug : List Char) : PostResponse :=
  if !IsValidSlug slug then .badRequest
  else
    match reader slug with
    | .error _ => .notFound
    | .ok postMarkdown =>
      let parsed := ParseFrontmatter yd postMarkdown
      match md parsed.2 with
      | .error _ => .renderFailure
      | .ok bodyHTML =>
        let title :=
          if parsed.1.title ≠ [] then parsed.1.title
          else toTitleCase (replaceDashSpace slug)
        .ok title (postPageHTML title parsed.1.date bodyHTML)

/-! ## Helper lemmas -/

/-- The empty-language regex matches nothing. -/
theorem rmatch_emp : ∀ s : List Char, Reg.emp.rmatch s = false
  | [] => rfl
  | _ :: s => rmatch_emp s

/-- Matching an alternation is the disjunction of the matches. -/
theorem rmatch_alt : ∀ (s : List Char) (r t : Reg),
    (Reg.alt r t).rmatch s = (r.rmatch s || t.rmatch s)
  | [], _, _ => rfl
  | c :: s, r, t => rmatch_alt s (r.deriv c) (t.deriv c)

/-- A concatenation headed by the empty language matches nothing. -/
theorem rmatch_catEmp : ∀ (s : List Char) (r : Reg),
    (Reg.cat .emp r).rmatch s = false
  | [], r => by simp [Reg.rmatch, Reg.nullable]
  | c :: s, r => by
    show (Reg.cat .emp r).rmatch s = false
    exact rmatch_catEmp s r

/-- `ε · p*` matches exactly the strings all of whose characters satisfy
`p`. -/
theorem rmatch_epsStar (p : Char → Bool) :
    ∀ s : List Char, (Reg.cat .eps (.star (.chr p))).rmatch s = s.all p
  | [] => rfl
  | c :: s => by
    show (Reg.alt (.cat .emp (.star (.chr p)))
      (.cat (if p c then .eps else .emp) (.star (.chr p)))).rmatch s = _
    rw [rmatch_alt, rmatch_catEmp, Bool.false_or, List.all_cons]
    by_cases h : p c = true
    · rw [h, if_pos rfl, rmatch_epsStar p s, Bool.true_and]
    · rw [Bool.eq_false_iff.mpr h, if_neg (by simp), rmatch_catEmp, Bool.false_and]

/-- `IsValidSlug` in closed form: non-empty and all characters in the
class. -/
theorem isValidSlug_eq : ∀ s : List Char,
    IsValidSlug s = (!s.isEmpty && s.all slugChar)
  | [] => rfl
  | c :: s => by
    show (Reg.cat (if slugChar c then .eps else .emp)
      (.star (.chr slugChar))).rmatch s = _
    by_cases h : slugChar c = true
    · rw [h, if_pos rfl, rmatch_epsStar, List.isEmpty_cons, List.all_cons, h]
      simp
    · rw [Bool.eq_false_iff.mpr h, if_neg (by simp), rmatch_catEmp,
        List.isEmpty_cons, List.all_cons, Bool.eq_false_iff.mpr h]
      simp

/-- The character class in the claim's words: ASCII letter, ASCII digit,
hyphen or underscore. -/
theorem slugChar_iff (c : Char) :
    slugChar c = true ↔
      (97 ≤ c.toNat ∧ c.toNat ≤ 122) ∨ (65 ≤ c.toNat ∧ c.toNat ≤ 90) ∨
      (48 ≤ c.toNat ∧ c.toNat ≤ 57) ∨ c = '-' ∨ c = '_' := by
  simp [slugChar, Bool.or_eq_true, Bool.and_eq_true, decide_eq_true_iff]
  tauto

/-- C2: `IsValidSlug s` is true exactly when `s` is non-empty and every
character of `s` is an ASCII letter, an ASCII digit, a hyphen or an
underscore; in particular `IsValidSlug "../etc/passwd" = false`,
`IsValidSlug "valid-slug_123" = true` and `IsValidSlug "" = false`. -/
theorem c2_isValidSlug_characterization :
    (∀ s : List Char,
      IsValidSlug s = true ↔
        s ≠ [] ∧ ∀ c ∈ s,
          (97 ≤ c.toNat ∧ c.toNat ≤ 122) ∨ (65 ≤ c.toNat ∧ c.toNat ≤ 90) ∨
          (48 ≤ c.toNat ∧ c.toNat ≤ 57) ∨ c = '-' ∨ c = '_') ∧
    IsValidSlug "../etc/passwd".toList = false ∧
    IsValidSlug "valid-slug_123".toList = true ∧
    IsValidSlug "".toList = false := by
  refine ⟨fun s => ?_, by decide, by decide, by decide⟩
  rw [isValidSlug_eq, Bool.and_eq_true, List.all_eq_true]
  constructor
  · rintro ⟨h1, h2⟩
    exact ⟨by simpa [List.isEmpty_iff] using h1, fun c hc => (slugChar_iff c).mp (h2 c hc)⟩
  · rintro ⟨h1, h2⟩
    exact ⟨by simpa [List.isEmpty_iff] using h1, fun c hc => (slugChar_iff c).mpr (h2 c hc)⟩

/-- If `---` occurs nowhere in the string, the splitter finds nothing. -/
theorem splitOnceDashes_eq_none (l : List Char) (h : hasDashes l = false) :
    splitOnceDashes l = none := by
  induction l with
  | nil => rfl
  | cons c rest ih =>
    rw [hasDashes, Bool.or_eq_false_iff] at h
    rw [splitOnceDashes, if_neg (by simp [h.1]), ih h.2]

/-- C3: when the input does not begin with the delimiter `---`,
`ParseFrontmatter` returns the empty frontmatter and the input unchanged,
for every decoder. -/
theorem c3_no_delimiter (yd : List Char → Option PostFrontmatter)
    (content : List Char) (h : dashes.isPrefixOf content = false) :
    ParseFrontmatter yd content = (emptyFM, content) := by
  rw [ParseFrontmatter, if_neg (by simp [h])]

/-- Witness for C3 at the concrete input `hello`. -/
theorem c3_witness :
    dashes.isPrefixOf "hello".toList = false ∧
    ParseFrontmatter (fun _ => none) "hello".toList = (emptyFM, "hello".toList) :=
  ⟨by decide, c3_no_delimiter (fun _ => none) "hello".toList (by decide)⟩

/-- C4: when the input begins with `---` but `---` does not occur again
after it, `ParseFrontmatter` returns the empty frontmatter and the whole
original input (leading delimiter included), for every decoder. -/
theorem c4_unclosed_delimiter (yd : List Char → Option PostFrontmatter)
    (content : List Char) (h1 : dashes.isPrefixOf content = true)
    (h2 : hasDashes (content.drop 3) = false) :
    ParseFrontmatter yd content = (emptyFM, content) := by
  rw [ParseFrontmatter, if_pos (by simp [h1]), splitOnceDashes_eq_none _ h2]

/-- Witness for C4 at the unclosed-frontmatter input from the repository's
own test (`incomplete frontmatter missing closing`). -/
theorem c4_witness :
    dashes.isPrefixOf "---\ntitle: Incomplete\nThis should not parse".toList = true ∧
    hasDashes ("---\ntitle: Incomplete\nThis should not parse".toList.drop 3) = false ∧
    ParseFrontmatter (fun _ => none) "---\ntitle: Incomplete\nThis should not parse".toList =
      (emptyFM, "---\ntitle: Incomplete\nThis should not parse".toList) :=
  ⟨by decide, by decide,
    c4_unclosed_delimiter (fun _ => none) _ (by decide) (by decide)⟩

/-- Counterexample to C5 as stated: a decode failure does NOT always
leave the frontmatter empty. On the document whose metadata block is
`\ntitle: Hello\ndate: [2026]\n`, yaml.v3's documented contract has
`Unmarshal` decode `title`, fail on `date` and return a `*yaml.TypeError`
while the struct keeps the partially decoded fields (`ydTypeErr`); the
code only logs that error, so `ParseFrontmatter` hands the caller a
frontmatter with `title = Hello` — partially populated, not empty. -/
theorem c5_counterexample :
    (ydTypeErr "\ntitle: Hello\ndate: [2026]\n".toList).2 = true ∧
    ParseFrontmatterE ydTypeErr "---\ntitle: Hello\ndate: [2026]\n---\nbody".toList =
      (⟨"Hello".toList, []⟩, "body".toList) ∧
    (⟨"Hello".toList, []⟩ : PostFrontmatter) ≠ emptyFM := by
  refine ⟨rfl, by decide, by decide⟩

/-- C5 (amended): when the input has an opening and a closing delimiter
and the decoder fails on the metadata block between them, the failure is
not signalled to the caller (the return type has no error channel and the
result is fully determined): `ParseFrontmatter` returns whatever fields
the decoder populated before failing together with the trimmed body —
the empty frontmatter exactly when the failing decode populated nothing
(as a YAML syntax error does), but possibly a partially populated one
when yaml.v3 fails with a `*yaml.TypeError` after decoding some fields. -/
theorem c5_decode_failure_passthrough (ydE : List Char → PostFrontmatter × Bool)
    (content pre post : List Char)
    (h1 : dashes.isPrefixOf content = true)
    (h2 : splitOnceDashes (content.drop 3) = some (pre, post))
    (h3 : (ydE pre).2 = true) :
    ParseFrontmatterE ydE content = ((ydE pre).1, goTrimSpace post) ∧
    ((ydE pre).1 = emptyFM →
      ParseFrontmatterE ydE content = (emptyFM, goTrimSpace post)) := by
  have hmain : ParseFrontmatterE ydE content = ((ydE pre).1, goTrimSpace post) := by
    rw [ParseFrontmatterE, ParseFrontmatter, if_pos (by simp [h1]), h2]
    simp
  exact ⟨hmain, fun hz => by rw [hmain, hz]⟩

/-- Witness for C5 (amended) at the concrete partially-decoding document
of the counterexample and at a decoder that populates nothing. -/
theorem c5_witness :
    dashes.isPrefixOf "---\ntitle: Hello\ndate: [2026]\n---\nbody".toList = true ∧
    splitOnceDashes ("---\ntitle: Hello\ndate: [2026]\n---\nbody".toList.drop 3) =
      some ("\ntitle: Hello\ndate: [2026]\n".toList, "\nbody".toList) ∧
    (ydTypeErr "\ntitle: Hello\ndate: [2026]\n".toList).2 = true ∧
    ParseFrontmatterE ydTypeErr "---\ntitle: Hello\ndate: [2026]\n---\nbody".toList =
      ((ydTypeErr "\ntitle: Hello\ndate: [2026]\n".toList).1, goTrimSpace "\nbody".toList) ∧
    ParseFrontmatterE (fun _ => (emptyFM, true)) "---\nbad: [\n---\nbody".toList =
      (emptyFM, goTrimSpace "\nbody".toList) := by
  refine ⟨by decide, by decide, rfl, ?_, ?_⟩
  · exact (c5_decode_failure_passthrough ydTypeErr
      "---\ntitle: Hello\ndate: [2026]\n---\nbody".toList
      "\ntitle: Hello\ndate: [2026]\n".toList "\nbody".toList
      (by decide) (by decide) rfl).1
  · exact (c5_decode_failure_passthrough (fun _ => (emptyFM, true))
      "---\nbad: [\n---\nbody".toList "\nbad: [\n".toList "\nbody".toList
      (by decide) (by decide) rfl).2 rfl

/-- Trimming the `.md` extension from `stem ++ ".md"` yields `stem`. -/
theorem trimSuffixMd_append (stem : List Char) :
    trimSuffixMd (stem ++ mdExt) = stem := by
  rw [trimSuffixMd, if_pos]
  · rw [List.length_append]
    exact List.take_left' (by simp [mdExt])
  · exact List.isSuffixOf_iff_suffix.mpr (List.suffix_append stem mdExt)

/-- C7: for a content file `stem ++ ".md"` and a requested language `en`
or `th`: a stem carrying a `th-` or `en-` tag is included in the index
exactly when its tag is the requested language followed by a hyphen, and
a stem carrying neither tag is included under both languages. -/
theorem c7_language_filtering (lang stem : List Char)
    (hlang : lang = enStr ∨ lang = thStr) :
    ((thDash.isPrefixOf stem = true ∨ enDash.isPrefixOf stem = true) →
      (includesFile lang (stem ++ mdExt) = true ↔
        ((lang = thStr ∧ thDash.isPrefixOf stem = true) ∨
         (lang = enStr ∧ enDash.isPrefixOf stem = true)))) ∧
    ((thDash.isPrefixOf stem = false ∧ enDash.isPrefixOf stem = false) →
      includesFile enStr (stem ++ mdExt) = true ∧
      includesFile thStr (stem ++ mdExt) = true) := by
  have hsuf : mdExt.isSuffixOf (stem ++ mdExt) = true :=
    List.isSuffixOf_iff_suffix.mpr (List.suffix_append stem mdExt)
  constructor
  · intro htag
    rw [includesFile]
    rw [if_pos (by simp [hsuf]), trimSuffixMd_append,
      if_pos (by rcases htag with h | h <;> simp [h])]
    rcases hlang with rfl | rfl
    · have : enStr ++ ['-'] = enDash := rfl
      rw [this]
      constructor
      · intro h
        exact Or.inr ⟨rfl, h⟩
      · rintro (⟨hne, _⟩ | ⟨_, h⟩)
        · exact absurd hne (by decide)
        · exact h
    · have : thStr ++ ['-'] = thDash := rfl
      rw [this]
      constructor
      · intro h
        exact Or.inl ⟨rfl, h⟩
      · rintro (⟨_, h⟩ | ⟨hne, _⟩)
        · exact h
        · exact absurd hne (by decide)
  · rintro ⟨h1, h2⟩
    constructor <;>
      · rw [includesFile]
        rw [if_pos (by simp [hsuf]), trimSuffixMd_append,
          if_neg (by simp [h1, h2])]

/-- Witness for C7 at the spec's example stems: `en-getting-started` is
included under `en` and excluded under `th`; `announcement` is included
under both. -/
theorem c7_witness :
    includesFile enStr ("en-getting-started".toList ++ mdExt) = true ∧
    includesFile thStr ("en-getting-started".toList ++ mdExt) = false ∧
    includesFile enStr ("announcement".toList ++ mdExt) = true ∧
    includesFile thStr ("announcement".toList ++ mdExt) = true := by
  refine ⟨?_, ?_, ?_, ?_⟩
  · exact ((c7_language_filtering enStr "en-getting-started".toList (Or.inl rfl)).1
      (Or.inr (by decide))).mpr (Or.inr ⟨rfl, by decide⟩)
  · have hiff := (c7_language_filtering thStr "en-getting-started".toList (Or.inr rfl)).1
      (Or.inr (by decide))
    cases hcase : includesFile thStr ("en-getting-started".toList ++ mdExt) with
    | false => rfl
    | true =>
      exfalso
      rcases hiff.mp hcase with ⟨_, htag⟩ | ⟨hne, _⟩
      · exact absurd htag (by decide)
      · exact absurd hne (by decide)
  · exact ((c7_language_filtering enStr "announcement".toList (Or.inl rfl)).2
      ⟨by decide, by decide⟩).1
  · exact ((c7_language_filtering thStr "announcement".toList (Or.inr rfl)).2
      ⟨by decide, by decide⟩).2

/-- C8: on both the home and the contact page the resolved locale is
exactly `en` or exactly `th`, and equals the spec's description: the
value of the `lang` query parameter when that is non-empty, else the
value of the `lang` cookie, with any unrecognized selected value
(including empty or absent) resolving to the default `th`. -/
theorem langSpec_mem (q c : Option (List Char)) :
    langSpec q c = enStr ∨ langSpec q c = thStr := by
  simp only [langSpec]
  generalize (if Option.getD q [] ≠ [] then Option.getD q [] else Option.getD c []) = src
  by_cases h : src = enStr ∨ src = thStr
  · rw [if_pos h]
    exact h
  · rw [if_neg h]
    exact Or.inr rfl

theorem c8_locale_resolution (query cookie : Option (List Char)) :
    (resolveLang query cookie = enStr ∨ resolveLang query cookie = thStr) ∧
    resolveLang query cookie = langSpec query cookie ∧
    contactResolveLang query cookie = langSpec query cookie := by
  have heq : ∀ lang : List Char,
      (if ¬lang = enStr ∧ ¬lang = thStr then thStr else lang) =
      (if lang = enStr ∨ lang = thStr then lang else thStr) := by
    intro lang
    by_cases h1 : lang = enStr
    · simp [h1]
    · by_cases h2 : lang = thStr
      · simp [h2]
      · simp [h1, h2]
  have hco : contactResolveLang query cookie = resolveLang query cookie := rfl
  have hmain : resolveLang query cookie = langSpec query cookie := by
    simp only [resolveLang, langSpec]
    cases query with
    | none =>
      cases cookie with
      | none => decide
      | some w => simpa using heq w
    | some v =>
      by_cases hv : v = []
      · cases cookie with
        | none => subst hv; decide
        | some w => simpa [hv] using heq w
      · cases cookie with
        | none => simpa [hv] using heq v
        | some w => simpa [hv] using heq v
  exact ⟨hmain ▸ langSpec_mem query cookie, hmain, hco.trans hmain⟩

/-- The escaper leaves a neutral character unchanged. -/
theorem escapeChar_of_neutral (c : Char) (h : escNeutral c = true) :
    escapeChar c = [c] := by
  simp only [escNeutral, Bool.not_eq_eq_eq_not, Bool.not_true, Bool.or_eq_false_iff,
    decide_eq_false_iff_not] at h
  obtain ⟨⟨⟨⟨⟨h0, h34⟩, h39⟩, hamp⟩, hlt⟩, hgt⟩ := h
  rw [escapeChar, if_neg h0, if_neg h34, if_neg h39, if_neg hamp, if_neg hlt, if_neg hgt]

/-- The escaper leaves a string of neutral characters unchanged. -/
theorem htmlEscapeString_of_neutral : ∀ s : List Char,
    s.all escNeutral = true → htmlEscapeString s = s
  | [], _ => rfl
  | c :: s, h => by
    rw [List.all_cons, Bool.and_eq_true] at h
    rw [htmlEscapeString, escapeChar_of_neutral c h.1, htmlEscapeString_of_neutral s h.2,
      List.singleton_append]

/-- Every digit character is neutral for the escaper. -/
theorem escNeutral_digitChar : ∀ k : Nat, escNeutral (digitChar k) = true
  | 0 => rfl
  | 1 => rfl
  | 2 => rfl
  | 3 => rfl
  | 4 => rfl
  | 5 => rfl
  | 6 => rfl
  | 7 => rfl
  | 8 => rfl
  | _ + 9 => rfl

/-- Decimal representations consist of neutral characters. -/
theorem natDecAux_neutral : ∀ (fuel n : Nat),
    (natDecAux fuel n).all escNeutral = true
  | 0, _ => rfl
  | fuel + 1, n => by
    rw [natDecAux]
    by_cases h : n < 10
    · rw [if_pos h]
      simp [escNeutral_digitChar]
    · rw [if_neg h, List.all_append]
      simp [natDecAux_neutral fuel (n / 10), escNeutral_digitChar]

/-- Month abbreviations consist of neutral characters. -/
theorem monthAbbrev_neutral : ∀ m : Nat, (monthAbbrev m).all escNeutral = true
  | 0 => rfl
  | 1 => rfl
  | 2 => rfl
  | 3 => rfl
  | 4 => rfl
  | 5 => rfl
  | 6 => rfl
  | 7 => rfl
  | 8 => rfl
  | 9 => rfl
  | 10 => rfl
  | 11 => rfl
  | 12 => rfl
  | _ + 13 => rfl

/-- A formatted display date (`Jan 2, 2006` layout) consists of neutral
characters: escaping it is the identity. -/
theorem htmlEscapeString_formatJan2 (ymd : Nat × Nat × Nat) :
    htmlEscapeString (formatJan2 ymd) = formatJan2 ymd := by
  obtain ⟨y, m, d⟩ := ymd
  apply htmlEscapeString_of_neutral
  simp only [formatJan2, pad4, natDec, List.all_append, Bool.and_eq_true]
  refine ⟨⟨⟨⟨monthAbbrev_neutral m, by decide⟩, natDecAux_neutral _ d⟩, by decide⟩, ?_, ?_⟩
  · rw [List.all_eq_true]
    intro c hc
    rw [List.eq_of_mem_replicate hc]
    decide
  · exact natDecAux_neutral _ y

/-- C9: in home-page composition every dynamic text (localized welcome
heading and body, posts heading, and each post's slug, title and display
date) is HTML-escaped on insertion, and in post-page composition the
produced HTML equals the composition in which every dynamic text — the
title and the formatted date — is HTML-escaped on insertion, with only
the markdown-rendered body inserted verbatim as trusted HTML: the
formatted date contains no escapable character, so inserting it as
formatted coincides with inserting it escaped. -/
theorem c9_escaping :
    (∀ (welcomeTitle welcomeText postsHeading : List Char) (posts : List Post),
      homePageContent welcomeTitle welcomeText postsHeading posts =
        homePageContentSpec welcomeTitle welcomeText postsHeading posts) ∧
    (∀ title fmDate bodyHTML : List Char,
      postPageHTML title fmDate bodyHTML = postPageHTMLSpec title fmDate bodyHTML) := by
  constructor
  · intro wt wx ph posts
    rfl
  · intro title fmDate bodyHTML
    rw [postPageHTML, postPageHTMLSpec]
    by_cases h : fmDate = []
    · simp [h]
    · rw [if_pos h, if_pos h]
      cases parseDateYMD fmDate with
      | none => rfl
      | some ymd => simp [htmlEscapeString_formatJan2]

/-- C1: when the slug fails validation, the handler answers 400
(`badRequest`), and this answer is the same whatever the reader does —
in this pure embedding, that the response never depends on the reader is
exactly the statement that the reader is not consulted; when the slug
passes validation and the reader reports an error (no matching file), the
handler answers 404 (`notFound`). -/
theorem c1_postHandler_gatekeeping (md : List Char → Except Unit (List Char))
    (yd : List Char → Option PostFrontmatter)
    (reader : List Char → Except Unit (List Char)) (slug : List Char) :
    (IsValidSlug slug = false →
      PostHandler md yd reader slug = .badRequest ∧
      ∀ reader2 : List Char → Except Unit (List Char),
        PostHandler md yd reader2 slug = PostHandler md yd reader slug) ∧
    (IsValidSlug slug = true → ∀ e : Unit, reader slug = .error e →
      PostHandler md yd reader slug = .notFound) := by
  constructor
  · intro h
    constructor
    · rw [PostHandler, if_pos (by simp [h])]
    · intro reader2
      rw [PostHandler, if_pos (by simp [h]), PostHandler, if_pos (by simp [h])]
  · intro h e he
    rw [PostHandler, if_neg (by simp [h]), he]

/-- Witness for C1: the path-traversal slug `../etc/passwd` is rejected
with 400 before the reader is consulted, and the valid slug `nonexistent`
with a reader holding no file yields 404. -/
theorem c1_witness :
    IsValidSlug "../etc/passwd".toList = false ∧
    PostHandler (fun s => Except.ok s) (fun _ => none) (fun _ => Except.error ())
      "../etc/passwd".toList = .badRequest ∧
    IsValidSlug "nonexistent".toList = true ∧
    PostHandler (fun s => Except.ok s) (fun _ => none) (fun _ => Except.error ())
      "nonexistent".toList = .notFound :=
  ⟨by decide,
    ((c1_postHandler_gatekeeping (fun s => Except.ok s) (fun _ => none)
      (fun _ => Except.error ()) "../etc/passwd".toList).1 (by decide)).1,
    by decide,
    (c1_postHandler_gatekeeping (fun s => Except.ok s) (fun _ => none)
      (fun _ => Except.error ()) "nonexistent".toList).2 (by decide) () rfl⟩

/-- C10: when the frontmatter has no title, the post page's displayed
title is the full slug with hyphens replaced by spaces and title-cased,
with no stripping of a leading `th-`/`en-` language tag; in particular
the slug `en-getting-started` is rendered with title
`En Getting Started`. -/
theorem c10_title_from_full_slug (md : List Char → Except Unit (List Char))
    (yd : List Char → Option PostFrontmatter)
    (reader : List Char → Except Unit (List Char))
    (slug content bodyHTML : List Char)
    (hslug : IsValidSlug slug = true)
    (hreader : reader slug = .ok content)
    (htitle : (ParseFrontmatter yd content).1.title = [])
    (hmd : md (ParseFrontmatter yd content).2 = .ok bodyHTML) :
    PostHandler md yd reader slug =
      .ok (toTitleCase (replaceDashSpace slug))
        (postPageHTML (toTitleCase (replaceDashSpace slug))
          (ParseFrontmatter yd content).1.date bodyHTML) ∧
    toTitleCase (replaceDashSpace "en-getting-started".toList) =
      "En Getting Started".toList := by
  constructor
  · rw [PostHandler, if_neg (by simp [hslug]), hreader]
    simp only [hmd, htitle]
    simp
  · decide

/-- Witness for C10 at the slug `en-getting-started` with empty
frontmatter: the displayed title keeps the language tag. -/
theorem c10_witness :
    IsValidSlug "en-getting-started".toList = true ∧
    (ParseFrontmatter (fun _ => none) "hello".toList).1.title = [] ∧
    PostHandler (fun s => Except.ok s) (fun _ => none)
      (fun _ => Except.ok "hello".toList) "en-getting-started".toList =
      .ok (toTitleCase (replaceDashSpace "en-getting-started".toList))
        (postPageHTML (toTitleCase (replaceDashSpace "en-getting-started".toList))
          (ParseFrontmatter (fun _ => none) "hello".toList).1.date "hello".toList) ∧
    toTitleCase (replaceDashSpace "en-getting-started".toList) =
      "En Getting Started".toList := by
  have h := c10_title_from_full_slug (fun s => Except.ok s) (fun _ => none)
    (fun _ => Except.ok "hello".toList) "en-getting-started".toList
    "hello".toList "hello".toList (by decide) rfl (by decide) rfl
  exact ⟨by decide, by decide, h.1, h.2⟩

end BlogWeb
